import Mathlib

/-!
Verification development for the sambadns Terraform provider's record
synchronization core (internal/provider/samba_client.go and
internal/provider/provider.go).

The Go code is shallowly embedded: Go strings are Lean `String`s (the
repository only ever handles ASCII command-line text, where Go's byte
indexing and Lean's character indexing agree), the external `samba-tool`
process is an explicit environment `Env` mapping a full argument vector to
either its standard output or its combined failure text, and every client
operation additionally returns the list of argument vectors it invoked, so
that sequencing claims ("re-queries", "without invoking Create") are
statable.
-/

/-! ## Go string primitives (strings package, ASCII fragment) -/

/-- `unicode.IsSpace` on the characters that can occur in the tool's ASCII
output: space, tab, newline, vertical tab, form feed, carriage return,
NEL and NBSP. -/
def isGoSpace (ch : Char) : Bool :=
  ch == ' ' || ch == '\t' || ch == '\n' || ch.val == 11 || ch.val == 12 ||
  ch == '\r' || ch.val == 133 || ch.val == 160

/-- `strings.TrimSpace`. -/
def trimSpace (s : String) : String :=
  ⟨((s.data.dropWhile isGoSpace).reverse.dropWhile isGoSpace).reverse⟩

/-- Core of `strings.Split` for a one-character separator. -/
def splitCharAux (sep : Char) : List Char → List Char → List String
  | [], acc => [⟨acc.reverse⟩]
  | ch :: rest, acc =>
    if ch == sep then ⟨acc.reverse⟩ :: splitCharAux sep rest []
    else splitCharAux sep rest (ch :: acc)

/-- `strings.Split s sep` for a one-character separator `sep`. -/
def splitChar (sep : Char) (s : String) : List String :=
  splitCharAux sep s.data []

/-- List-level prefix test. -/
def isPfxList : List Char → List Char → Bool
  | [], _ => true
  | _ :: _, [] => false
  | p :: ps, ch :: cs => p == ch && isPfxList ps cs

/-- `strings.HasPrefix s pre`. -/
def hasPfx (s pre : String) : Bool := isPfxList pre.data s.data

/-- `strings.TrimPrefix s pre`. -/
def trimPfx (s pre : String) : String :=
  if hasPfx s pre then ⟨s.data.drop pre.data.length⟩ else s

/-- `strings.TrimSuffix s suf`. -/
def trimSfx (s suf : String) : String :=
  if isPfxList suf.data.reverse s.data.reverse then
    ⟨(s.data.reverse.drop suf.data.length).reverse⟩
  else s

/-- `strings.Contains s sub`. -/
def goContains (s sub : String) : Bool :=
  go s.data sub.data
where
  go : List Char → List Char → Bool
    | l, sub =>
      isPfxList sub l ||
        match l with
        | [] => false
        | _ :: rest => go rest sub

/-- ASCII `strings.ToUpper` on one character. -/
def toUpperChar (ch : Char) : Char :=
  if 'a' ≤ ch && ch ≤ 'z' then Char.ofNat (ch.toNat - 32) else ch

/-- `strings.ToUpper` (ASCII fragment). -/
def toUpperS (s : String) : String := ⟨s.data.map toUpperChar⟩

/-- `strings.Trim part "\""`: strip every leading and trailing `"`. -/
def trimQuotes (s : String) : String :=
  ⟨((s.data.dropWhile (· == '"')).reverse.dropWhile (· == '"')).reverse⟩

/-- `strings.Join parts sep`. -/
def joinSep (sep : String) : List String → String
  | [] => ""
  | [p] => p
  | p :: rest => p ++ sep ++ joinSep sep rest

/-- `strings.Index s "("`: position of the first opening parenthesis. -/
def findParenIdx : List Char → Option Nat
  | [] => none
  | ch :: rest =>
    if ch == '(' then some 0 else (findParenIdx rest).map (· + 1)

/-! ## Data model -/

/-- The `DNSRecord` struct of samba_client.go. -/
structure DNSRecord where
  Server : String
  Zone : String
  Name : String
  «Type» : String
  Value : String
  TTL : Int
  deriving Repr, DecidableEq

/-- The `SambaClient` struct (credentials only). -/
structure SambaClient where
  Username : String
  Password : String
  deriving Repr, DecidableEq

/-- `authArgs`: the trailing authentication argument pair. -/
def authArgs (c : SambaClient) : List String :=
  ["-U", c.Username ++ "%" ++ c.Password]

/-- The external world: for each full argument vector, either the standard
output of a successful `samba-tool` run, or the combined failure text that
`runCommand` wraps ("samba-tool error: ..., stderr: ..."). -/
abbrev Env := List String → Except String String

/-- The full argument vector `runCommand` hands to the subprocess. -/
def fullCmd (c : SambaClient) (args : List String) : List String :=
  args ++ authArgs c

/-- `runCommand`, instrumented with the list of invoked argument vectors. -/
def runCommand (c : SambaClient) (env : Env) (args : List String) :
    Except String String × List (List String) :=
  (env (fullCmd c args), [fullCmd c args])

/-! ## Output parser (parseQueryOutput) -/

/-- The regular expression `^\((\d+)\)` of the MX branch: when `s` starts
with a parenthesized run of digits, return those digits. -/
def mxPriority (s : String) : Option String :=
  match s.data with
  | '(' :: rest =>
    let digits := rest.takeWhile Char.isDigit
    if digits.isEmpty then none
    else
      match rest.drop digits.length with
      | ')' :: _ => some ⟨digits⟩
      | _ => none
  | _ => none

/-- Leftmost match of the regular expression `ttl=(\d+)`: the first
position where `ttl=` is followed by at least one digit; returns the
maximal digit run there. -/
def ttlScan : List Char → Option String
  | [] => none
  | l@(_ :: rest) =>
    if isPfxList ['t', 't', 'l', '='] l then
      let ds := (l.drop 4).takeWhile Char.isDigit
      if ds.isEmpty then ttlScan rest else some ⟨ds⟩
    else ttlScan rest

/-- `strconv.Atoi` on a run of decimal digits (64-bit range check). -/
def atoiDigits (s : String) : Option Int :=
  if s.data ≠ [] && s.data.all Char.isDigit &&
      s.data.foldl (fun acc ch => acc * 10 + (ch.toNat - 48)) 0 ≤
        9223372036854775807 then
    some (s.data.foldl (fun acc ch => acc * 10 + (ch.toNat - 48)) 0)
  else none

/-- The TTL extracted from `afterType` (default 3600, also when `Atoi`
overflows). -/
def ttlOf (afterType : String) : Int :=
  match ttlScan afterType.data with
  | some ds =>
    match atoiDigits ds with
    | some n => n
    | none => 3600
  | none => 3600

/-- The body of `parseQueryOutput`'s loop for the first (trimmed) line that
starts with `typePfx`. -/
def parseTypeLine (line typePfx recordType server zone name : String) :
    Except String DNSRecord :=
  let afterType := trimSpace (trimPfx line typePfx)
  match findParenIdx afterType.data with
  | none => .error ("unexpected output format: " ++ line)
  | some parenIdx =>
    let value := trimSpace ⟨afterType.data.take parenIdx⟩
    let value :=
      if toUpperS recordType == "MX" then
        match mxPriority (trimSpace ⟨afterType.data.drop parenIdx⟩) with
        | some priority => trimSfx value "." ++ " " ++ priority
        | none => value
      else value
    .ok { Server := server, Zone := zone, Name := name,
          «Type» := toUpperS recordType, Value := value,
          TTL := ttlOf afterType }

/-- `parseQueryOutput`: find the first line whose trimmed text starts with
`"<TYPE>:"` and parse it; error when no such line exists. -/
def parseQueryOutput (output server zone name recordType : String) :
    Except String DNSRecord :=
  let lines := splitChar '\n' output
  let typePfx := toUpperS recordType ++ ":"
  match lines.find? (fun line => hasPfx (trimSpace line) typePfx) with
  | some line =>
    parseTypeLine (trimSpace line) typePfx recordType server zone name
  | none => .error ("record type " ++ recordType ++ " not found in output")

/-! ## Record synchronizer (QueryRecord / CreateRecord / DeleteRecord /
UpdateRecord), each instrumented with its invocation trace. -/

/-- `QueryRecord`. -/
def QueryRecord (c : SambaClient) (env : Env)
    (server zone name recordType : String) :
    Except String (Option DNSRecord) × List (List String) :=
  let (res, tr) := runCommand c env ["dns", "query", server, zone, name, recordType]
  match res with
  | .error e =>
    if goContains e "WERR_DNS_ERROR_NAME_DOES_NOT_EXIST" ||
        goContains e "WERR_DNS_ERROR_RECORD_DOES_NOT_EXIST" ||
        goContains e "does not exist" then
      (.ok none, tr)
    else
      (.error e, tr)
  | .ok output =>
    match parseQueryOutput output server zone name recordType with
    | .error parseErr => (.error parseErr, tr)
    | .ok record => (.ok (some record), tr)

/-- `CreateRecord`. -/
def CreateRecord (c : SambaClient) (env : Env) (r : DNSRecord) :
    Except String Unit × List (List String) :=
  let (res, tr) := runCommand c env ["dns", "add", r.Server, r.Zone, r.Name, r.«Type», r.Value]
  match res with
  | .ok _ => (.ok (), tr)
  | .error e =>
    if goContains e "already exist" then
      let (q, tr2) := QueryRecord c env r.Server r.Zone r.Name r.«Type»
      match q with
      | .ok (some existing) =>
        if existing.Value == r.Value then (.ok (), tr ++ tr2)
        else (.error "record already exists with different value", tr ++ tr2)
      | _ => (.error "record already exists with different value", tr ++ tr2)
    else
      (.error e, tr)

/-- The single-quote character, as a string. -/
def singleQuote : String := ⟨[Char.ofNat 39]⟩

/-- `formatTXTForDelete`. -/
def formatTXTForDelete (value : String) : String :=
  let parts := splitChar ',' value
  let result := parts.map (fun part =>
    singleQuote ++ trimQuotes (trimSpace part) ++ singleQuote)
  joinSep " " result

/-- The value `DeleteRecord` actually sends: the TXT delete-encoding
transform is applied exactly when the type is TXT (case-insensitively) and
the value contains a comma. -/
def deleteValue (r : DNSRecord) : String :=
  if toUpperS r.«Type» == "TXT" && goContains r.Value "," then
    formatTXTForDelete r.Value
  else r.Value

/-- `DeleteRecord`. -/
def DeleteRecord (c : SambaClient) (env : Env) (r : DNSRecord) :
    Except String Unit × List (List String) :=
  let (res, tr) := runCommand c env ["dns", "delete", r.Server, r.Zone, r.Name, r.«Type», deleteValue r]
  match res with
  | .ok _ => (.ok (), tr)
  | .error e =>
    if goContains e "WERR_DNS_ERROR_NAME_DOES_NOT_EXIST" ||
        goContains e "WERR_DNS_ERROR_RECORD_DOES_NOT_EXIST" ||
        goContains e "does not exist" then
      (.ok (), tr)
    else
      (.error e, tr)

/-- `UpdateRecord`: delete then create. -/
def UpdateRecord (c : SambaClient) (env : Env) (old new : DNSRecord) :
    Except String Unit × List (List String) :=
  let (d, tr1) := DeleteRecord c env old
  match d with
  | .error e => (.error ("failed to delete old record: " ++ e), tr1)
  | .ok _ =>
    let (cr, tr2) := CreateRecord c env new
    match cr with
    | .error e => (.error ("failed to create new record: " ++ e), tr1 ++ tr2)
    | .ok _ => (.ok (), tr1 ++ tr2)

/-! ## Value normalizer (provider.go: normalizeIPv6, suppressValueDiff)

`net.ParseIP` is embedded following the Go standard library: the first `.`
or `:` in the literal selects the IPv4 or IPv6 grammar; addresses are byte
lists; `ParseIP` yields the 16-byte form (IPv4 results are v4-in-v6
mapped); zone-carrying literals (containing a percent sign) are rejected,
as `net.ParseIP` rejects them. -/

/-- Go `net.xtoi`: value and length of the maximal leading hex-digit run,
failing on an empty run or on reaching the `big` cutoff 0xFFFFFF. -/
def xtoiAux : List Char → Nat → Nat → Option (Nat × Nat)
  | [], n, i => if i == 0 then none else some (n, i)
  | ch :: rest, n, i =>
    if '0' ≤ ch && ch ≤ '9' then
      let n2 := n * 16 + (ch.toNat - 48)
      if n2 ≥ 16777215 then none else xtoiAux rest n2 (i + 1)
    else if 'a' ≤ ch && ch ≤ 'f' then
      let n2 := n * 16 + (ch.toNat - 87)
      if n2 ≥ 16777215 then none else xtoiAux rest n2 (i + 1)
    else if 'A' ≤ ch && ch ≤ 'F' then
      let n2 := n * 16 + (ch.toNat - 55)
      if n2 ≥ 16777215 then none else xtoiAux rest n2 (i + 1)
    else if i == 0 then none
    else some (n, i)

/-- Go `net.dtoi`: value and length of the maximal leading decimal-digit
run, failing on an empty run or on reaching the `big` cutoff. -/
def dtoiAux : List Char → Nat → Nat → Option (Nat × Nat)
  | [], n, i => if i == 0 then none else some (n, i)
  | ch :: rest, n, i =>
    if '0' ≤ ch && ch ≤ '9' then
      let n2 := n * 10 + (ch.toNat - 48)
      if n2 ≥ 16777215 then none else dtoiAux rest n2 (i + 1)
    else if i == 0 then none
    else some (n, i)

/-- One dotted-quad octet: decimal run, at most 255, no leading zero;
returns the octet and the unconsumed rest. -/
def parseOctet (s : List Char) : Option (Nat × List Char) :=
  match dtoiAux s 0 0 with
  | none => none
  | some (n, len) =>
    if n > 255 then none
    else if len > 1 && s.head? == some '0' then none
    else some (n, s.drop len)

/-- Go `net.parseIPv4`: exactly `a.b.c.d`, nothing left over; yields the
four octets. -/
def parseIPv4Go (s : List Char) : Option (List Nat) :=
  match parseOctet s with
  | none => none
  | some (a, s1) =>
    match s1 with
    | '.' :: s2 =>
      match parseOctet s2 with
      | none => none
      | some (b, s3) =>
        match s3 with
        | '.' :: s4 =>
          match parseOctet s4 with
          | none => none
          | some (c2, s5) =>
            match s5 with
            | '.' :: s6 =>
              match parseOctet s6 with
              | none => none
              | some (d, s7) => if s7.isEmpty then some [a, b, c2, d] else none
            | _ => none
        | _ => none
    | _ => none

/-- The v4-in-v6 mapped 16-byte form `net.IPv4` produces. -/
def v4mapped (oct : List Nat) : List Nat :=
  [0, 0, 0, 0, 0, 0, 0, 0, 0, 0, 255, 255] ++ oct

/-- Loop exit of Go `net.parseIPv6`: fails on leftover input, expands the
ellipsis when fewer than 16 bytes were produced, and rejects an ellipsis
that consumed nothing it needed. -/
def v6finish (acc : List Nat) (ell : Option Nat) (leftover : List Char) :
    Option (List Nat) :=
  if leftover.isEmpty then
    if acc.length < 16 then
      match ell with
      | none => none
      | some e => some (acc.take e ++ List.replicate (16 - acc.length) 0 ++ acc.drop e)
    else
      match ell with
      | some _ => none
      | none => some acc
  else none

/-- The main loop of Go `net.parseIPv6`; `acc` holds the bytes built so
far, `ell` the byte position of a `::` already seen.  At most eight
iterations occur, so fuel 9 is never exhausted. -/
def v6loop : Nat → List Char → List Nat → Option Nat → Option (List Nat)
  | 0, _, _, _ => none
  | fuel + 1, s, acc, ell =>
    match xtoiAux s 0 0 with
    | none => none
    | some (n, len) =>
      if n > 65535 then none
      else if (s.drop len).head? == some '.' then
        if ell == none && acc.length ≠ 12 then none
        else if acc.length + 4 > 16 then none
        else
          match parseIPv4Go s with
          | none => none
          | some oct => v6finish (acc ++ oct) ell []
      else
        let acc2 := acc ++ [n / 256, n % 256]
        match s.drop len with
        | [] => v6finish acc2 ell []
        | ':' :: s3 =>
          match s3 with
          | [] => none
          | ':' :: s4 =>
            if ell.isSome then none
            else
              match s4 with
              | [] => v6finish acc2 (some acc2.length) []
              | _ =>
                if acc2.length < 16 then v6loop fuel s4 acc2 (some acc2.length)
                else v6finish acc2 (some acc2.length) s4
          | _ =>
            if acc2.length < 16 then v6loop fuel s3 acc2 ell
            else v6finish acc2 ell s3
        | _ => none

/-- Go `net.parseIPv6` (zone already rejected by the caller). -/
def parseIPv6Go (s : List Char) : Option (List Nat) :=
  match s with
  | ':' :: ':' :: rest =>
    if rest.isEmpty then some (List.replicate 16 0)
    else v6loop 9 rest [] (some 0)
  | _ => v6loop 9 s [] none

/-- The first `.` or `:` in the literal (Go `net.ParseIP`'s dispatch). -/
def firstDotColon : List Char → Option Char
  | [] => none
  | ch :: rest =>
    if ch == '.' || ch == ':' then some ch else firstDotColon rest

/-- Go `net.ParseIP`, always yielding the 16-byte form on success. -/
def ParseIPGo (s : String) : Option (List Nat) :=
  match firstDotColon s.data with
  | some '.' => (parseIPv4Go s.data).map v4mapped
  | some ':' =>
    if s.data.contains (Char.ofNat 37) then none else parseIPv6Go s.data
  | _ => none

/-- `parsed.To4() != nil`: a 4-byte address, or a 16-byte v4-mapped one. -/
def goTo4IsSome (b : List Nat) : Bool :=
  b.length == 4 ||
    (b.length == 16 && (b.take 10).all (fun x => x == 0) &&
      b.get? 10 == some 255 && b.get? 11 == some 255)

/-- `parsed.To16()`. -/
def goTo16 (b : List Nat) : Option (List Nat) :=
  if b.length == 16 then some b
  else if b.length == 4 then some (v4mapped b)
  else none

/-- One lower-case hex digit. -/
def hexChar (n : Nat) : Char :=
  if n < 10 then Char.ofNat (48 + n) else Char.ofNat (87 + n)

/-- `%02x` of one byte. -/
def byteHexChars (b : Nat) : List Char := [hexChar (b / 16), hexChar (b % 16)]

/-- One `%02x%02x` group (two bytes) of the expansion format string. -/
def grp (b : List Nat) (i : Nat) : List Char :=
  byteHexChars (b.getD (2 * i) 0) ++ byteHexChars (b.getD (2 * i + 1) 0)

/-- The `fmt.Sprintf` expansion to 8 zero-padded lower-case groups. -/
def expandIPv6 (b : List Nat) : String :=
  ⟨grp b 0 ++ ':' :: grp b 1 ++ ':' :: grp b 2 ++ ':' :: grp b 3 ++ ':' ::
    grp b 4 ++ ':' :: grp b 5 ++ ':' :: grp b 6 ++ ':' :: grp b 7⟩

/-- `normalizeIPv6` of provider.go. -/
def normalizeIPv6 (ip : String) : String :=
  match ParseIPGo ip with
  | none => ip
  | some parsed =>
    if goTo4IsSome parsed then ip
    else
      match goTo16 parsed with
      | none => ip
      | some b => expandIPv6 b

/-- `suppressValueDiff` of provider.go (the schema lookup of the record
type is passed explicitly). -/
def suppressValueDiff (recordType old new : String) : Bool :=
  match toUpperS recordType with
  | "AAAA" => normalizeIPv6 old == normalizeIPv6 new
  | "CNAME" => trimSfx old "." == trimSfx new "."
  | _ => false

/-! ## Helper lemmas -/

/-- `List.find?` returns the first element satisfying the predicate. -/
theorem find?_first {α : Type} (p : α → Bool) (pre : List α) (l : α)
    (rest : List α) (hpre : ∀ x ∈ pre, p x = false) (hl : p l = true) :
    List.find? p (pre ++ l :: rest) = some l := by
  induction pre with
  | nil => simp [List.find?, hl]
  | cons a t ih =>
    have ha : p a = false := hpre a (List.mem_cons_self a t)
    simp only [List.cons_append, List.find?, ha]
    exact ih (fun x hx => hpre x (List.mem_cons_of_mem a hx))

/-- When the type-prefixed line is found, `parseQueryOutput` parses that
(trimmed) line. -/
theorem parseQueryOutput_found (output server zone name recordType line : String)
    (h : (splitChar '\n' output).find?
        (fun l => hasPfx (trimSpace l) (toUpperS recordType ++ ":")) = some line) :
    parseQueryOutput output server zone name recordType =
      parseTypeLine (trimSpace line) (toUpperS recordType ++ ":")
        recordType server zone name := by
  simp only [parseQueryOutput]
  rw [h]

/-- `toUpperS "MX" ++ ":"` is the literal prefix. -/
theorem mxPfx : toUpperS "MX" ++ ":" = "MX:" := rfl

/-- MX line with a well-formed priority group: the value is reassembled as
`"<hostname> <priority>"` with one trailing dot stripped. -/
theorem parseTypeLine_mx_pri (line typePfx server zone name : String)
    (k : Nat) (pri : String)
    (hk : findParenIdx (trimSpace (trimPfx line typePfx)).data = some k)
    (hp : mxPriority (trimSpace
        ⟨(trimSpace (trimPfx line typePfx)).data.drop k⟩) = some pri) :
    parseTypeLine line typePfx "MX" server zone name =
      .ok { Server := server, Zone := zone, Name := name, «Type» := "MX",
            Value := trimSfx (trimSpace
                ⟨(trimSpace (trimPfx line typePfx)).data.take k⟩) "." ++
              " " ++ pri,
            TTL := ttlOf (trimSpace (trimPfx line typePfx)) } := by
  simp only [parseTypeLine, hk, hp]
  rfl

/-- MX line with a malformed priority group: no error, the raw value is
kept unchanged. -/
theorem parseTypeLine_mx_nopri (line typePfx server zone name : String)
    (k : Nat)
    (hk : findParenIdx (trimSpace (trimPfx line typePfx)).data = some k)
    (hp : mxPriority (trimSpace
        ⟨(trimSpace (trimPfx line typePfx)).data.drop k⟩) = none) :
    parseTypeLine line typePfx "MX" server zone name =
      .ok { Server := server, Zone := zone, Name := name, «Type» := "MX",
            Value := trimSpace ⟨(trimSpace (trimPfx line typePfx)).data.take k⟩,
            TTL := ttlOf (trimSpace (trimPfx line typePfx)) } := by
  simp only [parseTypeLine, hk, hp]
  rfl

/-! ## Claims -/

/-- C6 counterexample: two PTR values differing only by a trailing dot are
NOT suppressed by `suppressValueDiff` (it returns `false` for PTR), while
the same pair under CNAME is suppressed — so PTR is not treated "exactly as
CNAME". -/
theorem suppressValueDiff_ptr_cex :
    suppressValueDiff "PTR" "target.example.com" "target.example.com." = false ∧
    suppressValueDiff "CNAME" "target.example.com" "target.example.com." = true := by
  decide

/-- C6 (amended): `suppressValueDiff` applies trailing-dot equivalence only
to CNAME; for PTR it always returns `false`, so dot-differing PTR values
are never treated as equivalent by the diff suppression. -/
theorem suppressValueDiff_ptr_never (old new : String) :
    suppressValueDiff "PTR" old new = false := rfl


/-- `parseIPv4Go` always yields exactly four octets. -/
theorem parseIPv4Go_length : ∀ s l, parseIPv4Go s = some l → l.length = 4 := by
  intro s l h
  unfold parseIPv4Go at h
  repeat' split at h
  all_goals try simp_all
  all_goals (subst h; rfl)

/-- `v6finish` always yields a 16-byte address. -/
theorem v6finish_len (acc : List Nat) (ell : Option Nat) (leftover : List Char)
    (b : List Nat) (hlen : acc.length ≤ 16)
    (hell : ∀ e, ell = some e → e ≤ acc.length)
    (h : v6finish acc ell leftover = some b) : b.length = 16 := by
  cases leftover with
  | cons w ws => simp [v6finish] at h
  | nil =>
    unfold v6finish at h
    simp only [List.isEmpty_nil, if_true] at h
    by_cases hl : acc.length < 16
    · rw [if_pos hl] at h
      cases ell with
      | none => simp at h
      | some e =>
        have he : e ≤ acc.length := hell e rfl
        simp only [Option.some.injEq] at h
        subst h
        simp only [List.length_append, List.length_take, List.length_replicate,
          List.length_drop]
        omega
    · rw [if_neg hl] at h
      cases ell with
      | some e => simp at h
      | none =>
        simp only [Option.some.injEq] at h
        subst h
        omega

/-- The `parseIPv6` loop always yields a 16-byte address (the byte count
is even and below 16 at every loop entry, and a recorded `::` position
never exceeds it). -/
theorem v6loop_len : ∀ (fuel : Nat) (s : List Char) (acc : List Nat)
    (ell : Option Nat) (b : List Nat),
    acc.length % 2 = 0 → acc.length < 16 →
    (∀ e, ell = some e → e ≤ acc.length) →
    v6loop fuel s acc ell = some b → b.length = 16 := by
  intro fuel
  induction fuel with
  | zero => intro s acc ell b _ _ _ h; simp [v6loop] at h
  | succ fuel ih =>
    intro s acc ell b hev hlt hell h
    unfold v6loop at h
    rcases hx : xtoiAux s 0 0 with _ | ⟨n, len⟩ <;> simp only [hx] at h
    · exact Option.noConfusion h
    by_cases hn : n > 65535
    · rw [if_pos hn] at h; exact Option.noConfusion h
    rw [if_neg hn] at h
    by_cases hdot : ((s.drop len).head? == some '.') = true
    · rw [if_pos hdot] at h
      by_cases hg1 : (ell == none && acc.length ≠ 12) = true
      · rw [if_pos hg1] at h; exact Option.noConfusion h
      rw [if_neg hg1] at h
      by_cases hg2 : acc.length + 4 > 16
      · rw [if_pos hg2] at h; exact Option.noConfusion h
      rw [if_neg hg2] at h
      rcases hoct : parseIPv4Go s with _ | oct <;> simp only [hoct] at h
      · exact Option.noConfusion h
      refine v6finish_len _ _ _ _ ?_ ?_ h
      · have h4 : oct.length = 4 := parseIPv4Go_length _ _ hoct
        simp only [List.length_append, h4]
        omega
      · intro e he
        have := hell e he
        simp only [List.length_append]
        omega
    · rw [if_neg hdot] at h
      rcases hs2 : s.drop len with _ | ⟨c1, s3⟩ <;> simp only [hs2] at h
      · refine v6finish_len _ _ _ _ ?_ ?_ h
        · simp only [List.length_append, List.length_cons, List.length_nil]
          omega
        · intro e he
          have := hell e he
          simp only [List.length_append]
          omega
      split at h
      · -- outer match: c1 :: s3 = [] is impossible
        rename_i heq
        exact List.noConfusion heq
      · -- c1 = ':' case, inner match on s3
        split at h
        · exact Option.noConfusion h
        · -- s3 = ':' :: s4
          by_cases hes : ell.isSome
          · rw [if_pos hes] at h; exact Option.noConfusion h
          rw [if_neg hes] at h
          split at h
          · -- s4 = []
            refine v6finish_len _ _ _ _ ?_ ?_ h
            · simp only [List.length_append, List.length_cons, List.length_nil]
              omega
            · intro e he
              injection he with he'
              omega
          · -- s4 nonempty
            by_cases hlt2 : (acc ++ [n / 256, n % 256]).length < 16
            · rw [if_pos hlt2] at h
              refine ih _ _ _ _ ?_ hlt2 ?_ h
              · simp only [List.length_append, List.length_cons, List.length_nil]
                omega
              · intro e he
                injection he with he'
                omega
            · rw [if_neg hlt2] at h
              refine v6finish_len _ _ _ _ ?_ ?_ h
              · simp only [List.length_append, List.length_cons, List.length_nil]
                omega
              · intro e he
                injection he with he'
                omega
        · -- s3 neither [] nor starting with ':'
          by_cases hlt2 : (acc ++ [n / 256, n % 256]).length < 16
          · rw [if_pos hlt2] at h
            refine ih _ _ _ _ ?_ hlt2 ?_ h
            · simp only [List.length_append, List.length_cons, List.length_nil]
              omega
            · intro e he
              have := hell e he
              simp only [List.length_append, List.length_cons, List.length_nil]
              omega
          · rw [if_neg hlt2] at h
            refine v6finish_len _ _ _ _ ?_ ?_ h
            · simp only [List.length_append, List.length_cons, List.length_nil]
              omega
            · intro e he
              have := hell e he
              simp only [List.length_append, List.length_cons, List.length_nil]
              omega
      · -- outer catch-all (first char not a colon): none
        exact Option.noConfusion h

/-- `net.ParseIP` always yields a 16-byte address. -/
theorem ParseIPGo_length (s : String) (b : List Nat)
    (h : ParseIPGo s = some b) : b.length = 16 := by
  unfold ParseIPGo at h
  split at h
  · -- dispatch on '.': IPv4 path
    rcases hoct : parseIPv4Go s.data with _ | oct <;> simp only [hoct] at h
    · exact Option.noConfusion h
    simp only [Option.map_some', Option.some.injEq] at h
    subst h
    have h4 : oct.length = 4 := parseIPv4Go_length _ _ hoct
    simp [v4mapped, h4]
  · -- dispatch on ':': IPv6 path
    by_cases hz : s.data.contains (Char.ofNat 37)
    · rw [if_pos hz] at h; exact Option.noConfusion h
    rw [if_neg hz] at h
    unfold parseIPv6Go at h
    split at h
    · -- starts with "::"
      rename_i rest heq
      by_cases hr : rest.isEmpty
      · rw [if_pos hr] at h
        simp only [Option.some.injEq] at h
        subst h
        simp
      · rw [if_neg hr] at h
        exact v6loop_len 9 rest [] (some 0) b (by simp) (by simp)
          (fun e he => by injection he with he'; omega) h
    · exact v6loop_len 9 s.data [] none b (by simp) (by simp)
        (fun e he => Option.noConfusion he) h
  · exact Option.noConfusion h

/-- C7: the AAAA normalizer maps any two literals that parse to the same
(non-IPv4-mapped) address to the same string; on the spec's example pair
both sides expand to the full 8-group zero-padded lower-case form; a
non-parseable literal, and a literal whose parse is IPv4 or IPv4-mapped,
are returned unchanged (the function is total, so it never fails). -/
theorem normalizeIPv6_canonical :
    (normalizeIPv6 "2001:db8::1" = "2001:0db8:0000:0000:0000:0000:0000:0001" ∧
     normalizeIPv6 "2001:0db8:0000:0000:0000:0000:0000:0001" =
       "2001:0db8:0000:0000:0000:0000:0000:0001") ∧
    (∀ s b, ParseIPGo s = some b → goTo4IsSome b = false →
      normalizeIPv6 s = expandIPv6 b) ∧
    (∀ s1 s2 b, ParseIPGo s1 = some b → ParseIPGo s2 = some b →
      goTo4IsSome b = false → normalizeIPv6 s1 = normalizeIPv6 s2) ∧
    (∀ s, ParseIPGo s = none → normalizeIPv6 s = s) ∧
    (∀ s b, ParseIPGo s = some b → goTo4IsSome b = true → normalizeIPv6 s = s) := by
  have expand : ∀ s b, ParseIPGo s = some b → goTo4IsSome b = false →
      normalizeIPv6 s = expandIPv6 b := by
    intro s b h h4
    have hlen : b.length = 16 := ParseIPGo_length s b h
    simp only [normalizeIPv6, h, h4, Bool.false_eq_true, if_false, goTo16,
      hlen]
    rfl
  refine ⟨by decide, expand, ?_, ?_, ?_⟩
  · intro s1 s2 b h1 h2 h4
    rw [expand s1 b h1 h4, expand s2 b h2 h4]
  · intro s h
    simp only [normalizeIPv6, h]
  · intro s b h h4
    simp only [normalizeIPv6, h, h4, if_true]

/-- C7 witness: the sameness conjunct applied to the spec's example pair,
which both parse to the 16-byte address 2001:0db8::1. -/
theorem normalizeIPv6_canonical_witness :
    normalizeIPv6 "2001:db8::1" =
      normalizeIPv6 "2001:0db8:0000:0000:0000:0000:0000:0001" :=
  normalizeIPv6_canonical.2.2.1 "2001:db8::1"
    "2001:0db8:0000:0000:0000:0000:0000:0001"
    [32, 1, 13, 184, 0, 0, 0, 0, 0, 0, 0, 0, 0, 0, 0, 1]
    (by decide) (by decide) (by decide)

/-- C10: when the split output lines are any prefix of non-matching lines
followed by a line whose trimmed text starts with the requested type's
upper-case prefix, the parser's result is built from that first matching
line alone — the lines after it (including further matching lines) are
ignored, and at most one record is ever produced. -/
theorem parseQueryOutput_first_match_wins
    (output server zone name recordType : String)
    (pre : List String) (line : String) (rest : List String)
    (hsplit : splitChar '\n' output = pre ++ line :: rest)
    (hpre : ∀ l ∈ pre, hasPfx (trimSpace l) (toUpperS recordType ++ ":") = false)
    (hline : hasPfx (trimSpace line) (toUpperS recordType ++ ":") = true) :
    parseQueryOutput output server zone name recordType =
      parseTypeLine (trimSpace line) (toUpperS recordType ++ ":")
        recordType server zone name := by
  apply parseQueryOutput_found
  rw [hsplit]
  exact find?_first _ pre line rest hpre hline

/-- C10 witness: an output listing two MX lines; the record comes from the
first one. -/
theorem parseQueryOutput_first_match_wins_witness :
    parseQueryOutput "Name=m, Records=2, Children=0\n  MX: a. (10) (ttl=5)\n  MX: b. (20) (ttl=6)" "dc" "z" "m" "MX" =
      parseTypeLine "MX: a. (10) (ttl=5)" (toUpperS "MX" ++ ":") "MX" "dc" "z" "m" ∧
    parseTypeLine "MX: a. (10) (ttl=5)" (toUpperS "MX" ++ ":") "MX" "dc" "z" "m" =
      .ok { Server := "dc", Zone := "z", Name := "m", «Type» := "MX",
            Value := "a 10", TTL := 5 } :=
  ⟨parseQueryOutput_first_match_wins _ "dc" "z" "m" "MX"
      ["Name=m, Records=2, Children=0"] "  MX: a. (10) (ttl=5)"
      ["  MX: b. (20) (ttl=6)"] (by decide)
      (by intro l hl; fin_cases hl; decide) (by decide),
    by rfl⟩

/-- C5: parsing the spec's MX example line yields the reassembled value
`"mail.example.com 10"` with TTL 900; and in general, whenever the trimmed
text after the value's first parenthesis starts with a parenthesized
integer (the priority), the parser strips one trailing dot from the
hostname and reassembles the value as `"<hostname> <priority>"`. -/
theorem parseQueryOutput_mx_roundtrip :
    (∀ server zone name,
      parseQueryOutput "MX: mail.example.com. (10) (flags=f0, serial=0, ttl=900)"
          server zone name "MX" =
        .ok { Server := server, Zone := zone, Name := name, «Type» := "MX",
              Value := "mail.example.com 10", TTL := 900 }) ∧
    (∀ output server zone name line k pri,
      (splitChar '\n' output).find?
          (fun l => hasPfx (trimSpace l) (toUpperS "MX" ++ ":")) = some line →
      findParenIdx (trimSpace (trimPfx (trimSpace line) (toUpperS "MX" ++ ":"))).data = some k →
      mxPriority (trimSpace ⟨(trimSpace (trimPfx (trimSpace line) (toUpperS "MX" ++ ":"))).data.drop k⟩) = some pri →
      parseQueryOutput output server zone name "MX" =
        .ok { Server := server, Zone := zone, Name := name, «Type» := "MX",
              Value := trimSfx (trimSpace ⟨(trimSpace (trimPfx (trimSpace line) (toUpperS "MX" ++ ":"))).data.take k⟩) "." ++ " " ++ pri,
              TTL := ttlOf (trimSpace (trimPfx (trimSpace line) (toUpperS "MX" ++ ":"))) }) := by
  constructor
  · intro server zone name
    rfl
  · intro output server zone name line k pri hfind hk hp
    rw [parseQueryOutput_found _ _ _ _ _ _ hfind]
    exact parseTypeLine_mx_pri _ _ _ _ _ _ _ hk hp

/-- C5 witness: the general conjunct applied to the example line itself. -/
theorem parseQueryOutput_mx_roundtrip_witness :
    parseQueryOutput "MX: mail.example.com. (10) (flags=f0, serial=0, ttl=900)"
        "dc" "example.com" "mail" "MX" =
      .ok { Server := "dc", Zone := "example.com", Name := "mail",
            «Type» := "MX",
            Value := trimSfx (trimSpace ⟨(trimSpace (trimPfx (trimSpace "MX: mail.example.com. (10) (flags=f0, serial=0, ttl=900)") (toUpperS "MX" ++ ":"))).data.take 18⟩) "." ++ " " ++ "10",
            TTL := ttlOf (trimSpace (trimPfx (trimSpace "MX: mail.example.com. (10) (flags=f0, serial=0, ttl=900)") (toUpperS "MX" ++ ":"))) } :=
  parseQueryOutput_mx_roundtrip.2
    "MX: mail.example.com. (10) (flags=f0, serial=0, ttl=900)"
    "dc" "example.com" "mail"
    "MX: mail.example.com. (10) (flags=f0, serial=0, ttl=900)" 18 "10"
    (by decide) (by decide) (by decide)

/-- C4 counterexample: a present MX line whose priority group is malformed
(the text after the value's parenthesis is `(flags=...`, not `(<digits>)`)
does NOT make the parse fail — the parser returns a record (with the raw
value, trailing dot kept, and no priority), contradicting the claim that a
ParseError is surfaced. -/
theorem parseQueryOutput_mx_malformed_cex :
    parseQueryOutput "MX: mail.example.com. (flags=f0, serial=0, ttl=900)"
        "dc" "example.com" "mail" "MX" =
      .ok { Server := "dc", Zone := "example.com", Name := "mail",
            «Type» := "MX", Value := "mail.example.com.", TTL := 900 } := by
  rfl

/-- C4 (amended): when the requested MX line is present and holds a
parenthesis, but the text after the value's parenthesis does not start
with a parenthesized integer, the parse does not fail: the record is
returned with the raw (untrimmed, priority-less) value and the extracted
TTL; the only parse errors are a missing type line or a line with no
parenthesis at all. -/
theorem parseQueryOutput_mx_malformed_is_silent
    (output server zone name line : String) (k : Nat)
    (hfind : (splitChar '\n' output).find?
        (fun l => hasPfx (trimSpace l) (toUpperS "MX" ++ ":")) = some line)
    (hk : findParenIdx (trimSpace (trimPfx (trimSpace line) (toUpperS "MX" ++ ":"))).data = some k)
    (hp : mxPriority (trimSpace ⟨(trimSpace (trimPfx (trimSpace line) (toUpperS "MX" ++ ":"))).data.drop k⟩) = none) :
    parseQueryOutput output server zone name "MX" =
      .ok { Server := server, Zone := zone, Name := name, «Type» := "MX",
            Value := trimSpace ⟨(trimSpace (trimPfx (trimSpace line) (toUpperS "MX" ++ ":"))).data.take k⟩,
            TTL := ttlOf (trimSpace (trimPfx (trimSpace line) (toUpperS "MX" ++ ":"))) } := by
  rw [parseQueryOutput_found _ _ _ _ _ _ hfind]
  exact parseTypeLine_mx_nopri _ _ _ _ _ _ hk hp

/-- C4 witness: the amended theorem applied to the malformed line. -/
theorem parseQueryOutput_mx_malformed_is_silent_witness :
    parseQueryOutput "MX: mail.example.com. (flags=f0, serial=0, ttl=900)"
        "dc" "example.com" "mail" "MX" =
      .ok { Server := "dc", Zone := "example.com", Name := "mail",
            «Type» := "MX",
            Value := trimSpace ⟨(trimSpace (trimPfx (trimSpace "MX: mail.example.com. (flags=f0, serial=0, ttl=900)") (toUpperS "MX" ++ ":"))).data.take 18⟩,
            TTL := ttlOf (trimSpace (trimPfx (trimSpace "MX: mail.example.com. (flags=f0, serial=0, ttl=900)") (toUpperS "MX" ++ ":"))) } :=
  parseQueryOutput_mx_malformed_is_silent
    "MX: mail.example.com. (flags=f0, serial=0, ttl=900)"
    "dc" "example.com" "mail"
    "MX: mail.example.com. (flags=f0, serial=0, ttl=900)" 18
    (by decide) (by decide) (by decide)

/-- C2: a failed query invocation whose combined failure text contains one
of the three "does not exist" markers yields the non-error absence
`(ok none)`; a failure without any marker is returned as an error; a
successful invocation is delegated to the parser, whose error (if any) is
returned as an error and whose record is returned wrapped in `some`. -/
theorem QueryRecord_absence_classification
    (c : SambaClient) (env : Env) (server zone name recordType : String) :
    (∀ e, env (fullCmd c ["dns", "query", server, zone, name, recordType]) = .error e →
      (goContains e "WERR_DNS_ERROR_NAME_DOES_NOT_EXIST" ||
       goContains e "WERR_DNS_ERROR_RECORD_DOES_NOT_EXIST" ||
       goContains e "does not exist") = true →
      QueryRecord c env server zone name recordType =
        (.ok none, [fullCmd c ["dns", "query", server, zone, name, recordType]])) ∧
    (∀ e, env (fullCmd c ["dns", "query", server, zone, name, recordType]) = .error e →
      (goContains e "WERR_DNS_ERROR_NAME_DOES_NOT_EXIST" ||
       goContains e "WERR_DNS_ERROR_RECORD_DOES_NOT_EXIST" ||
       goContains e "does not exist") = false →
      QueryRecord c env server zone name recordType =
        (.error e, [fullCmd c ["dns", "query", server, zone, name, recordType]])) ∧
    (∀ output, env (fullCmd c ["dns", "query", server, zone, name, recordType]) = .ok output →
      QueryRecord c env server zone name recordType =
        ((match parseQueryOutput output server zone name recordType with
          | .error parseErr => .error parseErr
          | .ok record => .ok (some record)),
         [fullCmd c ["dns", "query", server, zone, name, recordType]])) := by
  refine ⟨?_, ?_, ?_⟩
  · intro e henv hmark
    simp only [QueryRecord, runCommand, henv, hmark, if_true]
  · intro e henv hmark
    simp only [QueryRecord, runCommand, henv, hmark, Bool.false_eq_true, if_false]
  · intro output henv
    simp only [QueryRecord, runCommand, henv]
    cases parseQueryOutput output server zone name recordType <;> rfl

/-- A demonstration client for concrete witnesses. -/
def cDemo : SambaClient := ⟨"user", "pw"⟩

/-- An environment in which every invocation fails with a "does not exist"
failure text. -/
def envNotExist : Env := fun _ =>
  .error "samba-tool error: exit status 255, stderr: ERROR: record does not exist"

/-- An environment in which every invocation fails with an unclassified
failure text. -/
def envBoom : Env := fun _ =>
  .error "samba-tool error: exit status 1, stderr: NT_STATUS_LOGON_FAILURE"

/-- A demonstration A record. -/
def rDemo : DNSRecord :=
  { Server := "dc", Zone := "z", Name := "n", «Type» := "A",
    Value := "192.168.1.100", TTL := 0 }

/-- C2 witness: a query failing with a "does not exist" text returns the
non-error absence. -/
theorem QueryRecord_absence_classification_witness :
    QueryRecord cDemo envNotExist "dc" "z" "n" "A" =
      (.ok none, [fullCmd cDemo ["dns", "query", "dc", "z", "n", "A"]]) :=
  (QueryRecord_absence_classification cDemo envNotExist "dc" "z" "n" "A").1
    "samba-tool error: exit status 255, stderr: ERROR: record does not exist"
    rfl (by decide)

/-- C9: a failed delete invocation whose combined failure text contains one
of the three "does not exist" markers is treated as success; a failure
without any marker is returned as an error; a successful invocation
returns success. -/
theorem DeleteRecord_idempotent_absence
    (c : SambaClient) (env : Env) (r : DNSRecord) :
    (∀ e, env (fullCmd c ["dns", "delete", r.Server, r.Zone, r.Name, r.«Type», deleteValue r]) = .error e →
      (goContains e "WERR_DNS_ERROR_NAME_DOES_NOT_EXIST" ||
       goContains e "WERR_DNS_ERROR_RECORD_DOES_NOT_EXIST" ||
       goContains e "does not exist") = true →
      DeleteRecord c env r =
        (.ok (), [fullCmd c ["dns", "delete", r.Server, r.Zone, r.Name, r.«Type», deleteValue r]])) ∧
    (∀ e, env (fullCmd c ["dns", "delete", r.Server, r.Zone, r.Name, r.«Type», deleteValue r]) = .error e →
      (goContains e "WERR_DNS_ERROR_NAME_DOES_NOT_EXIST" ||
       goContains e "WERR_DNS_ERROR_RECORD_DOES_NOT_EXIST" ||
       goContains e "does not exist") = false →
      DeleteRecord c env r =
        (.error e, [fullCmd c ["dns", "delete", r.Server, r.Zone, r.Name, r.«Type», deleteValue r]])) ∧
    (∀ output, env (fullCmd c ["dns", "delete", r.Server, r.Zone, r.Name, r.«Type», deleteValue r]) = .ok output →
      DeleteRecord c env r =
        (.ok (), [fullCmd c ["dns", "delete", r.Server, r.Zone, r.Name, r.«Type», deleteValue r]])) := by
  refine ⟨?_, ?_, ?_⟩
  · intro e henv hmark
    simp only [DeleteRecord, runCommand, henv, hmark, if_true]
  · intro e henv hmark
    simp only [DeleteRecord, runCommand, henv, hmark, Bool.false_eq_true, if_false]
  · intro output henv
    simp only [DeleteRecord, runCommand, henv]

/-- C9 witness: deleting under the "does not exist" environment succeeds. -/
theorem DeleteRecord_idempotent_absence_witness :
    DeleteRecord cDemo envNotExist rDemo =
      (.ok (), [fullCmd cDemo ["dns", "delete", rDemo.Server, rDemo.Zone, rDemo.Name, rDemo.«Type», deleteValue rDemo]]) :=
  (DeleteRecord_idempotent_absence cDemo envNotExist rDemo).1
    "samba-tool error: exit status 255, stderr: ERROR: record does not exist"
    rfl (by decide)

/-- `DeleteRecord` always invokes exactly the one delete command. -/
theorem DeleteRecord_snd (c : SambaClient) (env : Env) (r : DNSRecord) :
    (DeleteRecord c env r).snd =
      [fullCmd c ["dns", "delete", r.Server, r.Zone, r.Name, r.«Type», deleteValue r]] := by
  simp only [DeleteRecord, runCommand]
  rcases henv : env (fullCmd c ["dns", "delete", r.Server, r.Zone, r.Name, r.«Type», deleteValue r]) with e | o
  · simp only [henv]
    split <;> rfl
  · simp only [henv]

/-- C3: Update first runs Delete(old); on a Delete failure it returns that
failure (wrapped with the delete-phase context) having invoked no `dns add`
command at all; on Delete success it runs Create(new) and returns Create's
result (wrapped with the create-phase context on failure), its invocations
being exactly Delete's followed by Create's — no rollback Create is ever
issued after a Create-phase failure. -/
theorem UpdateRecord_sequencing (c : SambaClient) (env : Env)
    (old new : DNSRecord) :
    (∀ e, (DeleteRecord c env old).fst = .error e →
      UpdateRecord c env old new =
        (.error ("failed to delete old record: " ++ e),
         (DeleteRecord c env old).snd) ∧
      ∀ cmd ∈ (DeleteRecord c env old).snd, cmd.get? 1 ≠ some "add") ∧
    ((DeleteRecord c env old).fst = .ok () →
      (UpdateRecord c env old new).snd =
        (DeleteRecord c env old).snd ++ (CreateRecord c env new).snd ∧
      (∀ e, (CreateRecord c env new).fst = .error e →
        (UpdateRecord c env old new).fst =
          .error ("failed to create new record: " ++ e)) ∧
      ((CreateRecord c env new).fst = .ok () →
        (UpdateRecord c env old new).fst = .ok ())) := by
  constructor
  · intro e hd
    constructor
    · rcases hD : DeleteRecord c env old with ⟨d, tr1⟩
      rw [hD] at hd
      have hd' : d = .error e := hd
      subst hd'
      simp only [UpdateRecord, hD]
    · intro cmd hmem
      rw [DeleteRecord_snd] at hmem
      simp only [List.mem_singleton] at hmem
      subst hmem
      intro hcontra
      have h1 : (fullCmd c ["dns", "delete", old.Server, old.Zone, old.Name,
          old.«Type», deleteValue old]).get? 1 = some "delete" := rfl
      rw [h1] at hcontra
      exact absurd (Option.some.inj hcontra) (by decide)
  · intro hd
    rcases hD : DeleteRecord c env old with ⟨d, tr1⟩
    rw [hD] at hd
    have hd' : d = .ok () := hd
    subst hd'
    rcases hC : CreateRecord c env new with ⟨cr, tr2⟩
    refine ⟨?_, ?_, ?_⟩
    · simp only [UpdateRecord, hD, hC]
      cases cr <;> rfl
    · intro e hce
      have hce' : cr = .error e := hce
      subst hce'
      simp only [UpdateRecord, hD, hC]
    · intro hco
      have hco' : cr = .ok () := hco
      subst hco'
      simp only [UpdateRecord, hD, hC]

/-- C3 witness: under the unclassified-failure environment, Delete fails
and Update returns the wrapped delete failure with only the delete command
invoked. -/
theorem UpdateRecord_sequencing_witness :
    UpdateRecord cDemo envBoom rDemo rDemo =
      (.error ("failed to delete old record: " ++
         "samba-tool error: exit status 1, stderr: NT_STATUS_LOGON_FAILURE"),
       (DeleteRecord cDemo envBoom rDemo).snd) ∧
    ∀ cmd ∈ (DeleteRecord cDemo envBoom rDemo).snd, cmd.get? 1 ≠ some "add" :=
  (UpdateRecord_sequencing cDemo envBoom rDemo rDemo).1
    "samba-tool error: exit status 1, stderr: NT_STATUS_LOGON_FAILURE"
    (by rfl)

/-- A demonstration AAAA record whose value is the short IPv6 form. -/
def rAAAA : DNSRecord :=
  { Server := "dc", Zone := "example.com", Name := "host", «Type» := "AAAA",
    Value := "2001:db8::1", TTL := 0 }

/-- An environment in which the add invocation fails with an "already
exists" text and the re-query returns the canonically equivalent expanded
IPv6 form. -/
def envAlready : Env := fun args =>
  if args = fullCmd cDemo ["dns", "add", "dc", "example.com", "host", "AAAA", "2001:db8::1"] then
    .error "samba-tool error: exit status 255, stderr: record already exists"
  else if args = fullCmd cDemo ["dns", "query", "dc", "example.com", "host", "AAAA"] then
    .ok "  AAAA: 2001:0db8:0000:0000:0000:0000:0000:0001 (flags=600000f0, serial=110, ttl=3600)\n"
  else .error "unexpected invocation"

/-- C1 counterexample: on an "already exists" failure, the stored value
`2001:0db8:...:0001` is canonically equivalent (per the AAAA normalizer)
to the requested `2001:db8::1`, yet Create fails — and its conflict error
is a fixed message that names neither the stored nor the requested value.
So success is not equivalent to canonical equivalence, and the error does
not name both values. -/
theorem CreateRecord_conflict_cex :
    (CreateRecord cDemo envAlready rAAAA).fst =
      .error "record already exists with different value" ∧
    normalizeIPv6 "2001:0db8:0000:0000:0000:0000:0000:0001" =
      normalizeIPv6 rAAAA.Value ∧
    goContains "record already exists with different value" rAAAA.Value = false ∧
    goContains "record already exists with different value"
      "2001:0db8:0000:0000:0000:0000:0000:0001" = false ∧
    (QueryRecord cDemo envAlready "dc" "example.com" "host" "AAAA").fst =
      .ok (some { Server := "dc", Zone := "example.com", Name := "host",
                  «Type» := "AAAA",
                  Value := "2001:0db8:0000:0000:0000:0000:0000:0001",
                  TTL := 3600 }) :=
  ⟨rfl, by decide, by decide, by decide, rfl⟩

/-- C1 (amended): on an "already exists" failure Create re-queries the same
key, succeeds exactly when the re-query succeeds with a record whose stored
value is byte-for-byte equal to the requested value, and otherwise fails
with the fixed conflict message "record already exists with different
value" (which names neither value); the invocations are the add followed by
the re-query. -/
theorem CreateRecord_already_exists_exact (c : SambaClient) (env : Env)
    (r : DNSRecord) (e : String)
    (henv : env (fullCmd c ["dns", "add", r.Server, r.Zone, r.Name, r.«Type», r.Value]) = .error e)
    (hmark : goContains e "already exist" = true) :
    CreateRecord c env r =
      ((match (QueryRecord c env r.Server r.Zone r.Name r.«Type»).fst with
        | .ok (some existing) =>
          if existing.Value == r.Value then .ok ()
          else .error "record already exists with different value"
        | _ => .error "record already exists with different value"),
       fullCmd c ["dns", "add", r.Server, r.Zone, r.Name, r.«Type», r.Value] ::
         (QueryRecord c env r.Server r.Zone r.Name r.«Type»).snd) := by
  rcases hQ : QueryRecord c env r.Server r.Zone r.Name r.«Type» with ⟨q, tr2⟩
  simp only [CreateRecord, runCommand, henv, hmark, if_true, hQ]
  cases q with
  | error e2 => rfl
  | ok o =>
    cases o with
    | none => rfl
    | some existing =>
      by_cases hv : (existing.Value == r.Value) = true
      · simp [hv]
      · simp [hv]

/-- C1 witness: the amended theorem applied to the demonstration
environment, where the re-query returns the expanded form, so Create fails
with the fixed conflict message. -/
theorem CreateRecord_already_exists_exact_witness :
    CreateRecord cDemo envAlready rAAAA =
      ((match (QueryRecord cDemo envAlready "dc" "example.com" "host" "AAAA").fst with
        | .ok (some existing) =>
          if existing.Value == rAAAA.Value then .ok ()
          else .error "record already exists with different value"
        | _ => .error "record already exists with different value"),
       fullCmd cDemo ["dns", "add", "dc", "example.com", "host", "AAAA", "2001:db8::1"] ::
         (QueryRecord cDemo envAlready "dc" "example.com" "host" "AAAA").snd) :=
  CreateRecord_already_exists_exact cDemo envAlready rAAAA
    "samba-tool error: exit status 255, stderr: record already exists"
    rfl (by decide)

/-- A demonstration TXT record holding the spec's two-segment value. -/
def rTXT : DNSRecord :=
  { Server := "dc", Zone := "z", Name := "spf", «Type» := "TXT",
    Value := "\"v=spf1\",\"~all\"", TTL := 0 }

/-- C8: the TXT delete-encoding transform turns the stored
`"v=spf1","~all"` into two single-quoted space-separated segments; and
`DeleteRecord` applies the transform to the sent value exactly when the
type is TXT (case-insensitively) and the value contains a comma, always
invoking the one delete command with that value. -/
theorem formatTXT_delete_encoding :
    formatTXTForDelete "\"v=spf1\",\"~all\"" =
      singleQuote ++ "v=spf1" ++ singleQuote ++ " " ++
        singleQuote ++ "~all" ++ singleQuote ∧
    (∀ r : DNSRecord, (toUpperS r.«Type» == "TXT" && goContains r.Value ",") = true →
      deleteValue r = formatTXTForDelete r.Value) ∧
    (∀ r : DNSRecord, (toUpperS r.«Type» == "TXT" && goContains r.Value ",") = false →
      deleteValue r = r.Value) ∧
    (∀ (c : SambaClient) (env : Env) (r : DNSRecord),
      (DeleteRecord c env r).snd =
        [fullCmd c ["dns", "delete", r.Server, r.Zone, r.Name, r.«Type», deleteValue r]]) := by
  refine ⟨by decide, ?_, ?_, DeleteRecord_snd⟩
  · intro r h
    simp only [deleteValue, h, if_true]
  · intro r h
    simp only [deleteValue, h, Bool.false_eq_true, if_false]

/-- C8 witness: the transform is applied to the demonstration TXT record,
whose value holds a comma. -/
theorem formatTXT_delete_encoding_witness :
    deleteValue rTXT = formatTXTForDelete rTXT.Value ∧
    formatTXTForDelete rTXT.Value =
      singleQuote ++ "v=spf1" ++ singleQuote ++ " " ++
        singleQuote ++ "~all" ++ singleQuote :=
  ⟨formatTXT_delete_encoding.2.1 rTXT (by decide), by decide⟩
